import Mathlib

/-!
Verification of the MP3-Service intake pipeline (python_service).

The Python sources are shallowly embedded: pure functions become Lean
functions over `String`/`List Char`; stateful steps become explicit
state passing; Python code that can raise is modelled with `Except`.
Python string semantics (truthiness, str.title, str.replace,
pathlib suffix/stem, re.sub with the module's six patterns) are
reproduced for the ASCII inputs the service handles.
-/

namespace MP3Service

/-! ## Python string semantics helpers -/

/-- ASCII lower-casing of a string, as Python str.lower on ASCII input. -/
def asciiLower (s : String) : String := ⟨s.data.map Char.toLower⟩

/-- ASCII upper-casing of a string, as Python str.upper on ASCII input. -/
def asciiUpper (s : String) : String := ⟨s.data.map Char.toUpper⟩

/-- Is `sub` a contiguous sublist of `cs`? -/
def listHasInfix (sub cs : List Char) : Bool :=
  match cs with
  | [] => sub.isEmpty
  | _ :: rest => sub.isPrefixOf cs || listHasInfix sub rest

/-- Python `sub in s` substring containment. -/
def strContains (s sub : String) : Bool := listHasInfix sub.data s.data

/-- Does `s` end with `suffixStr` (glob pattern `*suffixStr`, case sensitive,
as pathlib rglob matches file names on a POSIX filesystem)? -/
def strEndsWith (s suffixStr : String) : Bool := suffixStr.data.isSuffixOf s.data

/-- Index of the last '.' in a character list, if any. -/
def lastDotIdx (cs : List Char) : Option Nat :=
  match cs.reverse.findIdx? (· = '.') with
  | none => none
  | some j => some (cs.length - 1 - j)

/-- Python pathlib suffix of a file NAME: the part from the last dot,
provided that dot is neither the first nor the last character. -/
def pySuffix (s : String) : String :=
  match lastDotIdx s.data with
  | some i => if 0 < i ∧ i < s.data.length - 1 then ⟨s.data.drop i⟩ else ""
  | none => ""

/-- Python pathlib stem of a file NAME: the name with `pySuffix` removed. -/
def pyStem (s : String) : String :=
  match lastDotIdx s.data with
  | some i => if 0 < i ∧ i < s.data.length - 1 then ⟨s.data.take i⟩ else s
  | none => s

/-- One pass of Python str.replace on char lists (all non-overlapping
occurrences, left to right).  `fuel` bounds recursion; callers pass the
list length.  An empty `old` is only used in the service with `new = ""`,
where Python's replace is the identity, as here. -/
def listReplace (fuel : Nat) (cs old new : List Char) : List Char :=
  match fuel with
  | 0 => cs
  | f+1 =>
    if old.isEmpty then cs
    else
      match cs with
      | [] => []
      | c :: rest =>
        if old.isPrefixOf cs then new ++ listReplace f (cs.drop old.length) old new
        else c :: listReplace f rest old new

/-- Python str.replace. -/
def pyReplace (s old new : String) : String := ⟨listReplace s.data.length s.data old.data new.data⟩

/-- Python str whitespace test (ASCII whitespace). -/
def pyIsSpace (c : Char) : Bool :=
  c = ' ' ∨ c = '\t' ∨ c = '\n' ∨ c = '\r' ∨ c = '\x0b' ∨ c = '\x0c'

/-- Python str.strip(): drop leading and trailing whitespace. -/
def pyStrip (s : String) : String :=
  ⟨((s.data.dropWhile pyIsSpace).reverse.dropWhile pyIsSpace).reverse⟩

/-- Helper for `pyTitle`: the Bool records whether the previous character
was alphabetic (cased). -/
def pyTitleGo : Bool → List Char → List Char
  | _, [] => []
  | prevAlpha, c :: rest =>
    (if c.isAlpha then (if prevAlpha then c.toLower else c.toUpper) else c) :: pyTitleGo c.isAlpha rest

/-- Python str.title() on ASCII input: upper-case every letter that follows
a non-letter, lower-case every other letter. -/
def pyTitle (s : String) : String := ⟨pyTitleGo false s.data⟩

/-- Split at the first occurrence of a (non-empty) separator:
Python s.split(sep, 1) when sep occurs. -/
def splitFirstAux (fuel : Nat) (cs sep acc : List Char) : Option (List Char × List Char) :=
  match fuel with
  | 0 => none
  | f+1 =>
    if sep.isPrefixOf cs then some (acc.reverse, cs.drop sep.length)
    else
      match cs with
      | [] => none
      | c :: rest => splitFirstAux f rest sep (c :: acc)

/-- Split a string at the first occurrence of `sep`; `none` when `sep`
does not occur (Python `sep in s` is false). -/
def splitFirst (s sep : String) : Option (String × String) :=
  match splitFirstAux (s.data.length + 1) s.data sep.data [] with
  | none => none
  | some (a, b) => some (⟨a⟩, ⟨b⟩)

/-- Python truthiness of an optional string (None and "" are falsy). -/
def truthyS : Option String → Bool
  | none => false
  | some s => !s.isEmpty

/-- Python truthiness of an optional int (None and 0 are falsy). -/
def truthyI : Option Int → Bool
  | none => false
  | some n => n ≠ 0

/-- POSIX basename: the part of a path after the last '/'. -/
def baseName (p : String) : String := ⟨(p.data.reverse.takeWhile (· ≠ '/')).reverse⟩

/-! ## bpm_detector.py -/

/-- BPMDetector.is_bpm_valid: None is invalid, otherwise min ≤ bpm ≤ max. -/
def is_bpm_valid (bpm : Option Int) (minBpm maxBpm : Int) : Bool :=
  match bpm with
  | none => false
  | some b => minBpm ≤ b ∧ b ≤ maxBpm

/-- BPMDetector.get_corrected_bpm: if the detected value is out of range,
try floor(bpm/2) (Python //), then bpm*2; return the first in range, else
the original value. -/
def get_corrected_bpm (bpm minBpm maxBpm : Int) : Int :=
  if is_bpm_valid (some bpm) minBpm maxBpm then bpm
  else
    let half := Int.fdiv bpm 2
    if is_bpm_valid (some half) minBpm maxBpm then half
    else
      let double := bpm * 2
      if is_bpm_valid (some double) minBpm maxBpm then double
      else bpm

/-- AudioProcessor._process_bpm (live mode): keep a truthy, in-range tag BPM;
otherwise take the detector result (None when detection failed), octave
correct it, and write it back iff the corrected value is in range.
Returns (final BPM, whether the BPM tag was written). -/
def process_bpm (currentBpm detectedBpm : Option Int) (minBpm maxBpm : Int) : Option Int × Bool :=
  if truthyI currentBpm && is_bpm_valid currentBpm minBpm maxBpm then (currentBpm, false)
  else
    match detectedBpm with
    | some d =>
      if d ≠ 0 then
        let corrected := get_corrected_bpm d minBpm maxBpm
        if is_bpm_valid (some corrected) minBpm maxBpm then (some corrected, true)
        else (none, false)
      else (none, false)
    | none => (none, false)

/-! ## A small Python-re model (the constructs used by file_handler.PATTERNS)

file_handler.py applies six regex substitutions with re.IGNORECASE.
re.sub compiles the pattern before scanning; Python's sre parser rejects a
character-class range whose endpoint is a category escape (such as \s)
with the error "bad character range" — this has been so in every Python 3
release (the service requires Python 3.8+).  Compilation is therefore
modelled with Except, and matching is case-insensitive throughout. -/

/-- A parsed character-class item (sre set item). -/
inductive SetItem where
  | lit (c : Char)
  | range (lo hi : Char)
  | catSpace
  | catDigit
deriving Repr, DecidableEq

/-- A raw character-class token exactly as written in the pattern source:
a plain character or a backslash escape. -/
inductive ClsTok where
  | ch (c : Char)
  | esc (c : Char)
deriving Repr, DecidableEq

/-- Meaning of a single class token (sre _class_escape for the escapes the
patterns use: a category for \s and \d, an escaped literal otherwise). -/
def tokItem : ClsTok → SetItem
  | .ch c => .lit c
  | .esc 's' => .catSpace
  | .esc 'd' => .catDigit
  | .esc c => .lit c

/-- Is the item a category (not allowed as a range endpoint)? -/
def isCat : SetItem → Bool
  | .catSpace => true
  | .catDigit => true
  | _ => false

/-- sre_parse's character-class body parser: an item followed by '-' and
another token forms a range, whose endpoints must be literals; otherwise
"bad character range" is raised.  A trailing or leading '-' is a literal. -/
def parseClass : List ClsTok → Except String (List SetItem)
  | [] => .ok []
  | [tk] => .ok [tokItem tk]
  | [tk, .ch '-'] => .ok [tokItem tk, .lit '-']
  | tk :: .ch '-' :: tk2 :: rest =>
    let code1 := tokItem tk
    let code2 := tokItem tk2
    if isCat code1 || isCat code2 then .error "bad character range"
    else
      match code1, code2 with
      | .lit a, .lit b =>
        if b < a then .error "bad character range"
        else (parseClass rest).map (fun tail => .range a b :: tail)
      | _, _ => .error "bad character range"
  | tk :: rest => (parseClass rest).map (fun tail => tokItem tk :: tail)

/-- Compiled regex AST (bounded repetitions are expanded at compile time). -/
inductive RE where
  | eps
  | lit (c : Char)
  | cls (items : List SetItem)
  | seq (a b : RE)
  | alt (a b : RE)
  | star (a : RE)
  | nla (a : RE)
deriving Repr

/-- Case-insensitive membership of a character in a class item
(IGNORECASE lowers both the pattern and the input). -/
def matchSetItem (it : SetItem) (c : Char) : Bool :=
  match it with
  | .lit a => a.toLower = c.toLower
  | .range lo hi => lo.toLower ≤ c.toLower ∧ c.toLower ≤ hi.toLower
  | .catSpace => pyIsSpace c
  | .catDigit => c.isDigit

/-- Structural size of a regex, used to bound the matcher fuel. -/
def reSize : RE → Nat
  | .eps => 1
  | .lit _ => 1
  | .cls _ => 1
  | .seq a b => reSize a + reSize b + 1
  | .alt a b => reSize a + reSize b + 1
  | .star a => reSize a + 1
  | .nla a => reSize a + 1

/-- Backtracking matcher, Python preference order: the returned suffixes are
ordered the way Python's engine explores them (greedy quantifiers repeat
first, alternation tries the left branch first), so the head is the match
Python reports.  Star bodies that consume nothing are cut off, as Python
stops repeating on an empty body match. -/
def reMatches : Nat → RE → List Char → List (List Char)
  | 0, _, _ => []
  | _+1, .eps, s => [s]
  | _+1, .lit c, s =>
    match s with
    | [] => []
    | x :: xs => if x.toLower = c.toLower then [xs] else []
  | _+1, .cls items, s =>
    match s with
    | [] => []
    | x :: xs => if items.any (matchSetItem · x) then [xs] else []
  | f+1, .seq a b, s => (reMatches f a s).flatMap (reMatches f b)
  | f+1, .alt a b, s => reMatches f a s ++ reMatches f b s
  | f+1, .star a, s =>
    ((reMatches f a s).filter (fun s2 => s2.length < s.length)).flatMap
      (fun s2 => reMatches f (.star a) s2) ++ [s]
  | f+1, .nla a, s => if (reMatches f a s).isEmpty then [s] else []

/-- The remainder after Python's first preferred match of `re` at the start
of `s`, if `re` matches there at all. -/
def firstMatchRest (re : RE) (s : List Char) : Option (List Char) :=
  (reMatches ((s.length + 2) * (reSize re + 2)) re s).head?

/-- re.sub scanning: at each position try a match; on a match emit the
replacement and resume after it (after an empty match, keep the current
character and advance by one, as Python does). -/
def reSubGo : Nat → RE → List Char → List Char → List Char
  | 0, _, _, s => s
  | f+1, re, repl, s =>
    match firstMatchRest re s with
    | some s2 =>
      if s2.length < s.length then repl ++ reSubGo f re repl s2
      else
        match s with
        | [] => repl
        | c :: rest => repl ++ c :: reSubGo f re repl rest
    | none =>
      match s with
      | [] => []
      | c :: rest => c :: reSubGo f re repl rest

/-- Python re.sub(pattern, repl, s) for an unanchored pattern. -/
def reSub (re : RE) (repl s : String) : String :=
  ⟨reSubGo (s.data.length + 1) re repl.data s.data⟩

/-- Python re.sub for a pattern anchored with ^ (no MULTILINE): the caret
matches only at position 0, so at most one substitution happens, at the
start. -/
def reSubAnchored (re : RE) (repl s : String) : String :=
  match firstMatchRest re s.data with
  | some s2 => ⟨repl.data ++ s2⟩
  | none => s

/-- Sequence a list of regexes. -/
def reSeq (l : List RE) : RE := l.foldr .seq .eps

/-- A literal string as a regex. -/
def reStr (s : String) : RE := reSeq (s.data.map RE.lit)

/-- Greedy option: ? tries the body first, then empty. -/
def reOpt (a : RE) : RE := .alt a .eps

/-- Greedy plus: one copy then a greedy star. -/
def rePlus (a : RE) : RE := .seq a (.star a)

/-- Compile a class from its source tokens. -/
def compileCls (toks : List ClsTok) : Except String RE :=
  (parseClass toks).map RE.cls

/-! ### The six PATTERNS of file_handler.py, compiled from source -/

/-- Pattern 1 source: double dash. -/
def pattern1 : Except String RE := .ok (reSeq [.lit '-', .lit '-'])

/-- Pattern 2 source: one-or-more underscores, from class [_] with {1,}. -/
def pattern2 : Except String RE :=
  (compileCls [.ch '_']).map fun c => rePlus c

/-- Pattern 3 source: caret, class [a-cA-C0-9] repeated {1,3}, then class
[\s-_\.] repeated +.  The second class attempts the range \s-_ whose left
endpoint is the category \s, so sre compilation fails. -/
def pattern3 : Except String RE := do
  let c1 ← compileCls [.ch 'a', .ch '-', .ch 'c', .ch 'A', .ch '-', .ch 'C',
                       .ch '0', .ch '-', .ch '9']
  let c2 ← compileCls [.esc 's', .ch '-', .ch '_', .esc '.']
  pure (reSeq [c1, reOpt (.seq c1 (reOpt c1)), rePlus c2])

/-- Pattern 4 source: the website/advertisement pattern. -/
def pattern4 : Except String RE := do
  let body ← compileCls [.ch 'a', .ch '-', .ch 'z', .ch 'A', .ch '-', .ch 'Z',
                         .ch '0', .ch '-', .ch '9', .esc '(', .esc '-']
  let brackets ← compileCls [.esc '[', .esc '(']
  let trailing ← compileCls [.esc ')', .esc ']', .ch '*', .ch '[', .esc 'd']
  pure (reSeq [
    .star (.lit '('),
    .star (reSeq [.lit '_', .lit '-', .cls [.catSpace]]),
    .star (reSeq [.lit 'w', .lit 'w', .lit 'w', .star (.lit '.')]),
    .star (.lit '-'),
    rePlus body,
    .lit '.',
    .star brackets,
    rePlus (.alt (reStr "net") (.alt (reStr "com") (.alt (reStr "org") (reStr "ru")))),
    .star trailing])

/-- Pattern 5 source: negative lookahead for ")-", class [-_\)] repeated +,
alphanumeric class repeated {2,3}, then a literal dot. -/
def pattern5 : Except String RE := do
  let c1 ← compileCls [.ch '-', .ch '_', .esc ')']
  let c2 ← compileCls [.ch 'a', .ch '-', .ch 'z', .ch 'A', .ch '-', .ch 'Z',
                       .ch '0', .ch '-', .ch '9']
  pure (reSeq [.nla (reSeq [.lit ')', .lit '-']), rePlus c1,
               .seq c2 (.seq c2 (reOpt c2)), .lit '.'])

/-- Pattern 6 source: class [-_] starred then the literal "siberia". -/
def pattern6 : Except String RE := do
  let c1 ← compileCls [.ch '-', .ch '_']
  pure (.seq (.star c1) (reStr "siberia"))

/-- FileHandler.PATTERNS: each entry is (compiled pattern, anchored?, repl). -/
def PATTERNS : List (Except String RE × Bool × String) :=
  [(pattern1, false, " - "),
   (pattern2, false, " "),
   (pattern3, true, ""),
   (pattern4, false, ""),
   (pattern5, false, "."),
   (pattern6, false, "")]

/-! ## file_handler.py: clean_filename -/

/-- FileHandler.clean_filename: strip the extension with str.replace, apply
the six substitutions in order (each compiling its pattern first, as re.sub
does), strip, title-case, reappend the extension.  The result is an Except
because re.sub raises re.error when its pattern does not compile. -/
def clean_filename (filename extension : String) : Except String String := do
  let name0 := pyReplace filename extension ""
  let name ← PATTERNS.foldlM (fun nm pr => do
      let re ← pr.1
      pure (if pr.2.1 then reSubAnchored re pr.2.2 nm else reSub re pr.2.2 nm)) name0
  pure (pyTitle (pyStrip name) ++ extension)

/-! ## tag_handler.py -/

/-- TagHandler.extract_from_filename: take the pathlib stem, split on the
first " - " if present, else on the first "-", strip both sides; when no
dash occurs, return (None, None).  Note a stripped side may be "". -/
def extract_from_filename (filename : String) : Option String × Option String :=
  let name := pyStem filename
  match splitFirst name " - " with
  | some (a, t) => (some (pyStrip a), some (pyStrip t))
  | none =>
    match splitFirst name "-" with
    | some (a, t) => (some (pyStrip a), some (pyStrip t))
    | none => (none, none)

/-! ## processor.py -/

/-- Observable per-file effects of AudioProcessor.process_file (live mode). -/
inductive PAct where
  | bpmWrite (b : Int)
  | setArtistTag (a : String)
  | setTitleTag (t : String)
  | clearExtras
  | copyLocal
  | copyLocalFailed
  | deleteSource
  | copyNetwork
  | ledgerAppend
  | caughtException
deriving Repr, DecidableEq

/-- Outcome environment for one distribution attempt: whether shutil.copy2
to the local destination succeeds (copy_file catches its exceptions and
returns a Bool), and the network-share configuration. -/
structure DistCfg where
  copyOk : Bool
  includeShare : Bool
  hasNetworkPath : Bool
deriving Repr, DecidableEq

/-- AudioProcessor._copy_to_destinations (live mode): copy to the local
destination; only when copy_file returned True, delete the source and, if
sharing is enabled and a network path is configured, copy the local file to
the network share.  All sub-steps catch their own exceptions. -/
def copy_to_destinations (cfg : DistCfg) : List PAct :=
  if cfg.copyOk then
    [.copyLocal, .deleteSource] ++
      (if cfg.includeShare && cfg.hasNetworkPath then [.copyNetwork] else [])
  else [.copyLocalFailed]

/-- Lines 131-136 of processor.py (live mode): run _copy_to_destinations,
whose Bool outcome is discarded, then unconditionally call
update_copied_list, which appends the path to the on-disk record and, when
that write succeeds (ledgerOk), adds it to the in-memory set; a failed
ledger write is caught and adds to neither. -/
def distribute_and_record (cfg : DistCfg) (ledgerOk : Bool) (copied : List String)
    (path : String) : List PAct × List String :=
  let acts := copy_to_destinations cfg
  if ledgerOk then (acts ++ [.ledgerAppend], copied ++ [path])
  else (acts, copied)

/-- Result of the filename-inference step of process_file (lines 108-126,
live mode). -/
structure InferResult where
  artist : Option String
  title : Option String
  assignedArtist : Bool
  assignedTitle : Bool
  clearedExtras : Bool
deriving Repr, DecidableEq

/-- The filename-inference step: entered whenever artist or title is falsy;
a field is assigned when it was falsy and the filename yielded a truthy
value; clear_extra_tags is called whenever the branch was entered. -/
def infer_step (artist title : Option String) (filename : String) : InferResult :=
  if !truthyS artist || !truthyS title then
    let parsed := extract_from_filename filename
    let assignA := !truthyS artist && truthyS parsed.1
    let artist2 := if assignA then parsed.1 else artist
    let assignT := !truthyS title && truthyS parsed.2
    let title2 := if assignT then parsed.2 else title
    ⟨artist2, title2, assignA, assignT, true⟩
  else ⟨artist, title, false, false, false⟩

/-- AudioProcessor._get_output_filename: when artist and title are truthy
and each longer than 2 characters, and the artist has no '.', clean
"{artist} - {title}"; otherwise clean the original file NAME (with its
extension still attached — clean_filename strips the lower-cased extension
itself via str.replace).  Raises whatever clean_filename raises. -/
def get_output_filename (name : String) (artist title : Option String) :
    Except String String :=
  let extension := asciiLower (pySuffix name)
  match artist, title with
  | some a, some t =>
    if !a.isEmpty && !t.isEmpty && decide (2 < a.length) && decide (2 < t.length) then
      if !(a.data.contains '.') then clean_filename (a ++ " - " ++ t) extension
      else clean_filename name extension
    else clean_filename name extension
  | _, _ => clean_filename name extension

/-- Collaborator outcomes for one process_file call. -/
structure FileEnv where
  tagArtist : Option String
  tagTitle : Option String
  tagBpm : Option Int
  detectedBpm : Option Int
  dist : DistCfg
  ledgerOk : Bool
deriving Repr

/-- AudioProcessor.process_file (live mode): read tags, handle BPM for
.mp3 files, infer missing artist/title from the filename (clearing extra
tags when that branch ran), compute the output filename, distribute and
record.  Every sub-step catches its own exceptions except
_get_output_filename, whose re.error is caught by the surrounding
try/except, which skips distribution and the ledger append.
Returns (effects, updated ledger). -/
def process_file (env : FileEnv) (minBpm maxBpm : Int) (copied : List String)
    (path : String) : List PAct × List String :=
  let fileName := baseName path
  let isMp3 := asciiLower (pySuffix fileName) == ".mp3"
  let bpmActs : List PAct :=
    if isMp3 then
      match process_bpm env.tagBpm env.detectedBpm minBpm maxBpm with
      | (some b, true) => [.bpmWrite b]
      | _ => []
    else []
  let inf := infer_step env.tagArtist env.tagTitle fileName
  let tagActs : List PAct :=
    (if inf.assignedArtist then [.setArtistTag (inf.artist.getD "")] else []) ++
      (if inf.assignedTitle then [.setTitleTag (inf.title.getD "")] else []) ++
      (if inf.clearedExtras then [.clearExtras] else [])
  match get_output_filename fileName inf.artist inf.title with
  | .ok _ =>
    let distributed := distribute_and_record env.dist env.ledgerOk copied path
    (bpmActs ++ tagActs ++ distributed.1, distributed.2)
  | .error _ => (bpmActs ++ tagActs ++ [.caughtException], copied)

/-- AudioProcessor.process_all over an already-discovered file list: each
file is processed unless its path is in the in-memory copied set, which
process_file updates as it goes.  Returns (paths handed to process_file,
final ledger). -/
def process_all (env : FileEnv) (minBpm maxBpm : Int) (files copied : List String) :
    List String × List String :=
  match files with
  | [] => ([], copied)
  | f :: fs =>
    if f ∈ copied then process_all env minBpm maxBpm fs copied
    else
      let step := process_file env minBpm maxBpm copied f
      let rest := process_all env minBpm maxBpm fs step.2
      (f :: rest.1, rest.2)

/-! ## watcher.py -/

/-- Observable steps of AudioFileHandler._process_file_with_delay. -/
inductive WAct where
  | enteredInFlight
  | waitedReady
  | procAttempt
  | removedInFlight
deriving Repr, DecidableEq

/-- The handler's view of shared state: the in-flight set (self.processing)
and the processor's in-memory copied set. -/
structure HandlerState where
  processing : List String
  copied : List String
deriving Repr, DecidableEq

/-- AudioFileHandler._process_file_with_delay: skip when the path is
already in-flight, carries the INCOMPLETE~ sentinel, or is already in the
copied set; otherwise add to the in-flight set, wait for readiness,
attempt processing, and in the finally block remove the path from the
in-flight set if present.  The Bool argument models an exception inside
the try: the except block only logs it and the finally block runs
regardless, so the observable result is the same on both exit paths — the
argument therefore does not occur on the right-hand side.
Returns (new state, steps taken). -/
def process_file_with_delay (st : HandlerState) (path : String) (_raises : Bool) :
    HandlerState × List WAct :=
  if path ∈ st.processing then (st, [])
  else if strContains (baseName path) "INCOMPLETE~" then (st, [])
  else if path ∈ st.copied then (st, [])
  else
    let p1 := path :: st.processing
    let p2 := if path ∈ p1 then p1.erase path else p1
    ({ st with processing := p2 },
     [.enteredInFlight, .waitedReady, .procAttempt, .removedInFlight])

/-- One observation of the watched file at a 1-second sample point. -/
inductive SizeObs where
  | absent
  | size (n : Nat)
  | errObs
deriving Repr, DecidableEq

/-- AudioFileHandler._wait_for_file_ready's loop: fuel is the remaining
whole seconds before the timeout (the loop adds check_interval = 1 to
wait_time each iteration); `last` is last_size (initially -1); `t` is
wait_time.  Missing file and stat errors retry without touching last_size;
a size equal to the previous sample and positive returns ready; timeout
returns not-ready (the caller logs a warning and proceeds). -/
def wait_for_file_ready (obs : Nat → SizeObs) : Nat → Int → Nat → Nat × Bool
  | 0, _, t => (t, false)
  | fuel+1, last, t =>
    match obs t with
    | .absent => wait_for_file_ready obs fuel last (t+1)
    | .errObs => wait_for_file_ready obs fuel last (t+1)
    | .size n =>
      if (n : Int) = last ∧ 0 < n then (t, true)
      else wait_for_file_ready obs fuel (n : Int) (t+1)

/-- Entry point of the stability wait (timeout defaults to 30 at the call
site). -/
def wait_ready (obs : Nat → SizeObs) (timeout : Nat) : Nat × Bool :=
  wait_for_file_ready obs timeout (-1) 0

/-- The extension test of AudioFileHandler.on_created / on_modified:
file_path.suffix.lower() in supported_extensions. -/
def watcher_ext_ok (exts : List String) (name : String) : Bool :=
  decide (asciiLower (pySuffix name) ∈ exts)

/-! ## file_handler.py: discovery and copy -/

/-- FileHandler.get_audio_files over the recursive listing `names`: for
each configured extension, the names matching glob *ext then those
matching *EXT (ext upper-cased) — POSIX glob is case sensitive — then
drop every name containing the INCOMPLETE~ sentinel. -/
def get_audio_files (names exts : List String) : List String :=
  (exts.flatMap fun e =>
      (names.filter fun n => strEndsWith n e) ++
        (names.filter fun n => strEndsWith n (asciiUpper e))).filter
    fun n => !strContains n "INCOMPLETE~"

/-- The claim's notion of case-insensitive extension match. -/
def ext_matches_ci (name ext : String) : Bool :=
  strEndsWith (asciiLower name) (asciiLower ext)

/-- FileHandler.copy_file's destination choice (safe mode): when a file
already exists at stem++sfx, redirect once to stem++"_1"++sfx; the
existence of the redirected name is never checked, so shutil.copy2
overwrites it if present. -/
def copy_file_dest (existing : List String) (stem sfx : String) (safe : Bool) : String :=
  let destination := stem ++ sfx
  if safe ∧ destination ∈ existing then stem ++ "_1" ++ sfx
  else destination

/-! ## Predicates about the stability gate's sample history -/

/-- The loop invariant of _wait_for_file_ready: `last` is the value of the
most recent successful size sample strictly before time t (with -1 when no
sample succeeded yet). -/
def LastSample (obs : Nat → SizeObs) (t : Nat) (last : Int) : Prop :=
  (last = -1 ∧ ∀ s, s < t → ∀ n : Nat, obs s ≠ .size n) ∨
    (∃ (t' : Nat) (n : Nat), t' < t ∧ last = (n : Int) ∧ obs t' = .size n ∧
      ∀ s, t' < s → s < t → ∀ m : Nat, obs s ≠ .size m)

/-- Two consecutive successful size samples before and at time e agree on
a positive size (with only failed samples in between). -/
def ConsecutiveEqualSamples (obs : Nat → SizeObs) (e : Nat) : Prop :=
  ∃ n : Nat, 0 < n ∧ obs e = .size n ∧
    ∃ t', t' < e ∧ obs t' = .size n ∧
      ∀ s, t' < s → s < e → ∀ m : Nat, obs s ≠ .size m

/-! ## Claim theorems -/

/-- Pattern 3 fails to compile: the class [\s-_\.] contains the range \s-_
with a category endpoint, Python's "bad character range". -/
theorem pattern3_eq : pattern3 = .error "bad character range" := rfl

/-- clean_filename raises for every input: the substitution loop reaches
pattern 3 unconditionally and its compilation fails. -/
theorem clean_filename_always_error (filename extension : String) :
    clean_filename filename extension = .error "bad character range" := rfl

/-- C1 counterexample: the claim says a failed local copy skips the Ledger
append.  In the code, copy_file catches its exception and returns False,
_copy_to_destinations discards that Bool, and process_file appends
unconditionally afterwards: with the local copy failing (copyOk = false)
the trace still records the failed copy AND the ledger append, and the
path lands in the copied set. -/
theorem C1_counterexample :
    PAct.copyLocalFailed ∈
        (distribute_and_record ⟨false, false, false⟩ true [] "/music/a.mp3").1 ∧
      PAct.ledgerAppend ∈
        (distribute_and_record ⟨false, false, false⟩ true [] "/music/a.mp3").1 ∧
      "/music/a.mp3" ∈ (distribute_and_record ⟨false, false, false⟩ true [] "/music/a.mp3").2 := by
  decide

/-- C1 amended: distribution failures are caught inside FileHandler and do
not propagate (no delete and no network publish happen after a failed local
copy), but the Ledger append is NOT conditioned on the distribution
outcome: whenever the post-distribution code runs, the path is appended to
the on-disk record and the in-memory set exactly when the ledger file
write itself succeeds, regardless of copy success. -/
theorem C1_amended_append_unconditional (cfg : DistCfg) (ledgerOk : Bool)
    (copied : List String) (path : String) :
    (cfg.copyOk = false →
        PAct.deleteSource ∉ (distribute_and_record cfg ledgerOk copied path).1 ∧
          PAct.copyNetwork ∉ (distribute_and_record cfg ledgerOk copied path).1) ∧
      (ledgerOk = true →
        PAct.ledgerAppend ∈ (distribute_and_record cfg ledgerOk copied path).1 ∧
          path ∈ (distribute_and_record cfg ledgerOk copied path).2) ∧
      (ledgerOk = false →
        PAct.ledgerAppend ∉ (distribute_and_record cfg ledgerOk copied path).1 ∧
          (distribute_and_record cfg ledgerOk copied path).2 = copied) := by
  obtain ⟨c, s, n⟩ := cfg
  cases c <;> cases s <;> cases n <;> cases ledgerOk <;>
    simp [distribute_and_record, copy_to_destinations]

/-- C1 witness: the amended theorem applied with a failed copy and a
successful ledger write. -/
theorem C1_witness :
    (PAct.deleteSource ∉
        (distribute_and_record ⟨false, true, true⟩ true ["x"] "/music/b.mp3").1 ∧
      PAct.copyNetwork ∉
        (distribute_and_record ⟨false, true, true⟩ true ["x"] "/music/b.mp3").1) ∧
      (PAct.ledgerAppend ∈
          (distribute_and_record ⟨false, true, true⟩ true ["x"] "/music/b.mp3").1 ∧
        "/music/b.mp3" ∈
          (distribute_and_record ⟨false, true, true⟩ true ["x"] "/music/b.mp3").2) :=
  ⟨(C1_amended_append_unconditional ⟨false, true, true⟩ true ["x"] "/music/b.mp3").1 rfl,
   (C1_amended_append_unconditional ⟨false, true, true⟩ true ["x"] "/music/b.mp3").2.1 rfl⟩

/-- C2 counterexample: the claim says detected 200 in range [65,135] yields
no correction and no tag write; in fact floor(200/2) = 100 lies in the
range, so get_corrected_bpm returns 100 and _process_bpm writes the tag. -/
theorem C2_counterexample :
    get_corrected_bpm 200 65 135 = 100 ∧
      process_bpm none (some 200) 65 135 = (some 100, true) := by
  decide

/-- C2 amended: octave correction tests floor(value/2) first, then value*2,
and uses whichever lands in range; with range [65,135], detected 160 is
corrected to 80 and written, detected 50 to 100 and written, detected 200
to 100 and written; a value neither of whose octave corrections lands in
range (such as 300) yields no correction, the tag is not written, and
_process_bpm returns None without raising. -/
theorem C2_amended_octave_correction (b lo hi : Int) :
    (is_bpm_valid (some b) lo hi = true → get_corrected_bpm b lo hi = b) ∧
      (is_bpm_valid (some b) lo hi = false →
        is_bpm_valid (some (Int.fdiv b 2)) lo hi = true →
          get_corrected_bpm b lo hi = Int.fdiv b 2) ∧
      (is_bpm_valid (some b) lo hi = false →
        is_bpm_valid (some (Int.fdiv b 2)) lo hi = false →
          is_bpm_valid (some (b * 2)) lo hi = true → get_corrected_bpm b lo hi = b * 2) ∧
      (is_bpm_valid (some b) lo hi = false →
        is_bpm_valid (some (Int.fdiv b 2)) lo hi = false →
          is_bpm_valid (some (b * 2)) lo hi = false → get_corrected_bpm b lo hi = b) ∧
      (process_bpm none (some 160) 65 135 = (some 80, true) ∧
        process_bpm none (some 50) 65 135 = (some 100, true) ∧
        process_bpm none (some 200) 65 135 = (some 100, true) ∧
        process_bpm none (some 300) 65 135 = (none, false)) := by
  refine ⟨?_, ?_, ?_, ?_, by decide⟩ <;>
    · intros
      simp only [get_corrected_bpm, *]
      simp [*]

/-- C2 witness: the amended theorem applied at detected 200 with range
[65,135], discharging the out-of-range and half-in-range hypotheses. -/
theorem C2_witness : get_corrected_bpm 200 65 135 = Int.fdiv 200 2 :=
  (C2_amended_octave_correction 200 65 135).2.1 (by decide) (by decide)

/-- C4 counterexample: the claim says the secondary-tag cleanup does not
run when the filename inference assigned no field.  With both tags missing
and the filename "NoSeparator.mp3" (no dash), nothing is assigned, yet
clear_extra_tags still runs, because the code calls it whenever artist or
title was missing. -/
theorem C4_counterexample :
    (infer_step none none "NoSeparator.mp3").assignedArtist = false ∧
      (infer_step none none "NoSeparator.mp3").assignedTitle = false ∧
      (infer_step none none "NoSeparator.mp3").clearedExtras = true := by
  decide

/-- C4 amended: the secondary-tag cleanup runs if and only if artist or
title was missing (falsy) before the inference step — i.e. whenever the
inference branch is entered — regardless of whether any field was actually
assigned; in particular it does run whenever at least one field was
assigned. -/
theorem C4_amended_cleanup_iff_missing (artist title : Option String) (filename : String) :
    ((infer_step artist title filename).clearedExtras = true ↔
        (truthyS artist = false ∨ truthyS title = false)) ∧
      ((infer_step artist title filename).assignedArtist = true ∨
          (infer_step artist title filename).assignedTitle = true →
        (infer_step artist title filename).clearedExtras = true) := by
  unfold infer_step
  by_cases ha : truthyS artist = true <;> by_cases ht : truthyS title = true <;>
    simp_all

/-- C4 witness: the amended theorem applied where only the title is
assigned from the filename: cleanup runs. -/
theorem C4_witness :
    (infer_step (some "Artist") none "Daft Punk - One More Time.mp3").clearedExtras = true :=
  (C4_amended_cleanup_iff_missing (some "Artist") none "Daft Punk - One More Time.mp3").2
    (Or.inr (by decide))

/-- C6: in _copy_to_destinations, the source is deleted only when the local
copy returned success and strictly after it in the effect order, and the
network publish happens only after a successful local copy, never instead
of it and never before it; when the local copy failed nothing else
happens. -/
theorem C6_delete_after_copy_network_after_local (cfg : DistCfg) :
    (PAct.deleteSource ∈ copy_to_destinations cfg →
        cfg.copyOk = true ∧ PAct.copyLocal ∈ copy_to_destinations cfg ∧
          (copy_to_destinations cfg).indexOf PAct.copyLocal <
            (copy_to_destinations cfg).indexOf PAct.deleteSource) ∧
      (PAct.copyNetwork ∈ copy_to_destinations cfg →
        cfg.copyOk = true ∧ PAct.copyLocal ∈ copy_to_destinations cfg ∧
          (copy_to_destinations cfg).indexOf PAct.copyLocal <
            (copy_to_destinations cfg).indexOf PAct.copyNetwork) ∧
      (cfg.copyOk = false → copy_to_destinations cfg = [PAct.copyLocalFailed]) := by
  obtain ⟨c, s, n⟩ := cfg
  cases c <;> cases s <;> cases n <;> decide

/-- C6 witness: the theorem applied with a successful copy and sharing
enabled, discharging the network-publish membership hypothesis. -/
theorem C6_witness :
    DistCfg.copyOk ⟨true, true, true⟩ = true ∧
      PAct.copyLocal ∈ copy_to_destinations ⟨true, true, true⟩ ∧
        (copy_to_destinations ⟨true, true, true⟩).indexOf PAct.copyLocal <
          (copy_to_destinations ⟨true, true, true⟩).indexOf PAct.copyNetwork :=
  (C6_delete_after_copy_network_after_local ⟨true, true, true⟩).2.1 (by decide)

/-- C7: no output filename is ever produced.  In every branch
_get_output_filename calls clean_filename, and clean_filename raises
re.error "bad character range" for every input because its third pattern
contains the character-class range \s-_ whose endpoint is a category
escape, which Python's regex compiler rejects; the selection logic of the
claim is therefore unreachable in effect and process_file aborts through
its try/except for every file. -/
theorem C7_no_output_filename_ever (name : String) (artist title : Option String) :
    get_output_filename name artist title = .error "bad character range" := by
  cases artist <;> cases title <;>
    simp [get_output_filename, clean_filename_always_error]

/-- C10: copy_file's collision handling applies the _1 suffix exactly once:
with safe mode and an existing file at stem.ext the write is redirected to
stem_1.ext unconditionally — the existence of stem_1.ext is never checked,
so a file already there is overwritten, and no stem_2.ext is ever chosen;
without a collision the original destination is used. -/
theorem C10_collision_suffix_once (existing : List String) (stem sfx : String) :
    ((stem ++ sfx) ∈ existing →
        copy_file_dest existing stem sfx true = stem ++ "_1" ++ sfx) ∧
      ((stem ++ sfx) ∉ existing → copy_file_dest existing stem sfx true = stem ++ sfx) ∧
      (copy_file_dest ["Song.mp3", "Song_1.mp3"] "Song" ".mp3" true = "Song_1.mp3" ∧
        "Song_1.mp3" ∈ ["Song.mp3", "Song_1.mp3"]) := by
  refine ⟨?_, ?_, by decide⟩ <;> intro h <;> simp [copy_file_dest, h]

/-- C10 witness: the theorem applied where the plain destination exists. -/
theorem C10_witness : copy_file_dest ["a.mp3"] "a" ".mp3" true = "a" ++ "_1" ++ ".mp3" :=
  (C10_collision_suffix_once ["a.mp3"] "a" ".mp3").1 (by decide)

/-- Helper: _process_file_with_delay either skips (state unchanged, no
steps) or runs the full handler body, restoring the in-flight set. -/
theorem process_file_with_delay_eq (st : HandlerState) (path : String) (raises : Bool) :
    process_file_with_delay st path raises = (st, []) ∨
      process_file_with_delay st path raises =
        (st, [WAct.enteredInFlight, WAct.waitedReady, WAct.procAttempt,
              WAct.removedInFlight]) := by
  unfold process_file_with_delay
  by_cases h1 : path ∈ st.processing
  · simp [h1]
  · by_cases h2 : strContains (baseName path) "INCOMPLETE~" = true
    · simp [h1, h2]
    · by_cases h3 : path ∈ st.copied
      · simp [h1, h2, h3]
      · right
        simp [h1, h2, h3, List.erase_cons_head]

/-- C8: the in-flight set is the handler's sole guard and is always
released: a path already in-flight causes an immediate skip (no second
concurrent handling); for a path not in-flight the handler leaves the
in-flight set exactly as it found it — so its path is absent afterwards —
on success and exception exits alike (the result does not depend on
whether the try body raised); and when a processing attempt happens, the
in-flight entry is made before it and removed after it. -/
theorem C8_inflight_guard_and_release (st : HandlerState) (path : String) (raises : Bool) :
    (path ∈ st.processing → process_file_with_delay st path raises = (st, [])) ∧
      (path ∉ st.processing →
        (process_file_with_delay st path raises).1.processing = st.processing ∧
          path ∉ (process_file_with_delay st path raises).1.processing) ∧
      ((process_file_with_delay st path raises).2 = [] ∨
        (process_file_with_delay st path raises).2 =
          [WAct.enteredInFlight, WAct.waitedReady, WAct.procAttempt,
           WAct.removedInFlight]) ∧
      process_file_with_delay st path true = process_file_with_delay st path false := by
  refine ⟨fun h1 => by simp [process_file_with_delay, h1], ?_, ?_, ?_⟩
  · intro h1
    rcases process_file_with_delay_eq st path raises with h | h <;> rw [h] <;>
      exact ⟨rfl, h1⟩
  · rcases process_file_with_delay_eq st path raises with h | h <;> rw [h]
    · exact Or.inl rfl
    · exact Or.inr rfl
  · rfl

/-- C8 witness: the theorem applied to a handler run that raises, for a
path not in-flight: the in-flight set is restored. -/
theorem C8_witness :
    (process_file_with_delay ⟨[], []⟩ "/b/x.mp3" true).1.processing = [] ∧
      "/b/x.mp3" ∉ (process_file_with_delay ⟨[], []⟩ "/b/x.mp3" true).1.processing :=
  (C8_inflight_guard_and_release ⟨[], []⟩ "/b/x.mp3" true).2.1 (by simp)

/-- C3: the claim's testable property fails on the code.  With one file
and an empty ledger, the first run appends nothing (process_file aborts at
clean_filename's "bad character range" before the ledger append), so the
second run hands the very same file to process_file again instead of
processing zero files. -/
theorem C3_second_run_reprocesses :
    (process_all ⟨none, none, none, none, ⟨true, false, false⟩, true⟩ 65 135
        ["/base/Song.mp3"] []).2 = [] ∧
      (process_all ⟨none, none, none, none, ⟨true, false, false⟩, true⟩ 65 135
          ["/base/Song.mp3"]
          (process_all ⟨none, none, none, none, ⟨true, false, false⟩, true⟩ 65 135
            ["/base/Song.mp3"] []).2).1 = ["/base/Song.mp3"] := by
  decide

/-- C5 counterexample: ".Mp3" matches ".mp3" case-insensitively and the
event handler accepts it, but polling discovery (rglob on *ext and *EXT,
case sensitive on POSIX) misses the mixed-case name entirely. -/
theorem C5_counterexample :
    ext_matches_ci "track.Mp3" ".mp3" = true ∧
      watcher_ext_ok [".mp3"] "track.Mp3" = true ∧
      get_audio_files ["track.Mp3"] [".mp3"] = [] := by
  decide

/-- C5 amended: polling discovery includes a name exactly when it ends
with a configured extension as written or fully upper-cased (not any
mixture of cases) and does not carry the INCOMPLETE~ sentinel; the event
handler's test is genuinely case-insensitive (it compares the lower-cased
suffix against the configured list); and a sentinel-carrying name is
excluded unconditionally in both modes. -/
theorem C5_amended_discovery (names exts : List String) (n : String) :
    (n ∈ get_audio_files names exts ↔
        n ∈ names ∧
          (∃ e ∈ exts, strEndsWith n e = true ∨ strEndsWith n (asciiUpper e) = true) ∧
          strContains n "INCOMPLETE~" = false) ∧
      (watcher_ext_ok exts n = true ↔ asciiLower (pySuffix n) ∈ exts) ∧
      (strContains (baseName n) "INCOMPLETE~" = true →
        ∀ (st : HandlerState) (raises : Bool),
          process_file_with_delay st n raises = (st, [])) := by
  refine ⟨?_, by simp [watcher_ext_ok], ?_⟩
  · simp only [get_audio_files, List.mem_filter, List.mem_flatMap, List.mem_append,
      Bool.not_eq_true']
    constructor
    · rintro ⟨⟨e, he, ⟨hn, hend⟩ | ⟨hn, hend⟩⟩, hinc⟩
      · exact ⟨hn, ⟨e, he, Or.inl hend⟩, hinc⟩
      · exact ⟨hn, ⟨e, he, Or.inr hend⟩, hinc⟩
    · rintro ⟨hn, ⟨e, he, h⟩, hinc⟩
      exact ⟨⟨e, he, h.elim (fun hh => Or.inl ⟨hn, hh⟩) (fun hh => Or.inr ⟨hn, hh⟩)⟩, hinc⟩
  · intro hinc st raises
    unfold process_file_with_delay
    by_cases h1 : n ∈ st.processing
    · simp [h1]
    · simp [h1, hinc]

/-- C5 witness: the theorem's sentinel clause applied to an INCOMPLETE~
name: the event handler skips it. -/
theorem C5_witness :
    process_file_with_delay ⟨["q"], []⟩ "INCOMPLETE~x.mp3" false = (⟨["q"], []⟩, []) :=
  (C5_amended_discovery [] [] "INCOMPLETE~x.mp3").2.2 (by decide) ⟨["q"], []⟩ false

/-- Stability-loop step: a missing file retries, leaving last_size alone. -/
theorem wait_step_absent (obs : Nat → SizeObs) (fuel : Nat) (last : Int) (t : Nat)
    (h : obs t = .absent) :
    wait_for_file_ready obs (fuel+1) last t = wait_for_file_ready obs fuel last (t+1) := by
  simp only [wait_for_file_ready]
  rw [h]

/-- Stability-loop step: a stat error retries, leaving last_size alone. -/
theorem wait_step_err (obs : Nat → SizeObs) (fuel : Nat) (last : Int) (t : Nat)
    (h : obs t = .errObs) :
    wait_for_file_ready obs (fuel+1) last t = wait_for_file_ready obs fuel last (t+1) := by
  simp only [wait_for_file_ready]
  rw [h]

/-- Stability-loop step on a successful size sample. -/
theorem wait_step_size (obs : Nat → SizeObs) (fuel : Nat) (last : Int) (t n : Nat)
    (h : obs t = .size n) :
    wait_for_file_ready obs (fuel+1) last t =
      if (n : Int) = last ∧ 0 < n then (t, true)
      else wait_for_file_ready obs fuel (n : Int) (t+1) := by
  simp only [wait_for_file_ready]
  rw [h]

/-- Helper: the stability loop adds one second of wait per iteration and
runs at most `fuel` iterations, so the elapsed time is bounded. -/
theorem wait_elapsed_le (obs : Nat → SizeObs) :
    ∀ (fuel : Nat) (last : Int) (t : Nat),
      (wait_for_file_ready obs fuel last t).1 ≤ t + fuel := by
  intro fuel
  induction fuel with
  | zero => intro last t; simp [wait_for_file_ready]
  | succ f ih =>
    intro last t
    cases hobs : obs t with
    | absent =>
      rw [wait_step_absent obs f last t hobs]
      exact le_trans (ih last (t+1)) (by omega)
    | errObs =>
      rw [wait_step_err obs f last t hobs]
      exact le_trans (ih last (t+1)) (by omega)
    | size n =>
      rw [wait_step_size obs f last t n hobs]
      by_cases hc : (n : Int) = last ∧ 0 < n
      · rw [if_pos hc]
        show t ≤ t + (f+1)
        omega
      · rw [if_neg hc]
        exact le_trans (ih (n : Int) (t+1)) (by omega)

/-- Helper: when the stability loop returns ready, the sample history shows
two consecutive successful samples of equal positive size. -/
theorem wait_ready_sound_aux (obs : Nat → SizeObs) :
    ∀ (fuel : Nat) (last : Int) (t : Nat), LastSample obs t last →
      (wait_for_file_ready obs fuel last t).2 = true →
      ConsecutiveEqualSamples obs (wait_for_file_ready obs fuel last t).1 := by
  intro fuel
  induction fuel with
  | zero => intro last t _ h; simp [wait_for_file_ready] at h
  | succ f ih =>
    intro last t hinv hready
    cases hobs : obs t with
    | absent =>
      rw [wait_step_absent obs f last t hobs] at hready ⊢
      refine ih last (t+1) ?_ hready
      rcases hinv with ⟨hl, hno⟩ | ⟨t', n, ht', hlast, hobs', hgap⟩
      · refine Or.inl ⟨hl, fun s hs m => ?_⟩
        rcases Nat.lt_succ_iff_lt_or_eq.mp hs with h | rfl
        · exact hno s h m
        · rw [hobs]; intro hcon; cases hcon
      · refine Or.inr ⟨t', n, Nat.lt_succ_of_lt ht', hlast, hobs', fun s h1 h2 m => ?_⟩
        rcases Nat.lt_succ_iff_lt_or_eq.mp h2 with h | rfl
        · exact hgap s h1 h m
        · rw [hobs]; intro hcon; cases hcon
    | errObs =>
      rw [wait_step_err obs f last t hobs] at hready ⊢
      refine ih last (t+1) ?_ hready
      rcases hinv with ⟨hl, hno⟩ | ⟨t', n, ht', hlast, hobs', hgap⟩
      · refine Or.inl ⟨hl, fun s hs m => ?_⟩
        rcases Nat.lt_succ_iff_lt_or_eq.mp hs with h | rfl
        · exact hno s h m
        · rw [hobs]; intro hcon; cases hcon
      · refine Or.inr ⟨t', n, Nat.lt_succ_of_lt ht', hlast, hobs', fun s h1 h2 m => ?_⟩
        rcases Nat.lt_succ_iff_lt_or_eq.mp h2 with h | rfl
        · exact hgap s h1 h m
        · rw [hobs]; intro hcon; cases hcon
    | size n =>
      rw [wait_step_size obs f last t n hobs] at hready ⊢
      by_cases hc : (n : Int) = last ∧ 0 < n
      · rw [if_pos hc] at hready ⊢
        rcases hinv with ⟨hl, _⟩ | ⟨t', n₂, ht', hlast, hobs', hgap⟩
        · exfalso
          have := hc.1
          omega
        · have hn : n = n₂ := by
            have h1 := hc.1
            omega
          subst hn
          exact ⟨n, hc.2, hobs, t', ht', hobs', hgap⟩
      · rw [if_neg hc] at hready ⊢
        refine ih (n : Int) (t+1) ?_ hready
        exact Or.inr ⟨t, n, Nat.lt_succ_self t, rfl, hobs,
          fun s h1 h2 m => by omega⟩

/-- C9: the stability gate samples at a fixed 1-second sub-interval and
(1) always terminates within the bounded timeout (the elapsed wait never
exceeds it; a non-ready result only yields a warning and processing
proceeds), (2) returns ready only on two consecutive successful samples of
equal nonzero size, (3) returns ready as soon as the first two samples
agree on a nonzero size, and (4) a file absent at a sample is retried
rather than failing, as the concrete absent/5/absent/5 history shows. -/
theorem C9_stability_gate :
    (∀ (obs : Nat → SizeObs) (timeout : Nat), (wait_ready obs timeout).1 ≤ timeout) ∧
      (∀ (obs : Nat → SizeObs) (timeout : Nat), (wait_ready obs timeout).2 = true →
        ConsecutiveEqualSamples obs (wait_ready obs timeout).1) ∧
      (∀ (obs : Nat → SizeObs) (timeout n : Nat), obs 0 = .size n → obs 1 = .size n →
        0 < n → 2 ≤ timeout → wait_ready obs timeout = (1, true)) ∧
      wait_ready (fun t => [SizeObs.absent, .size 5, .absent, .size 5].getD t .errObs) 30
        = (3, true) := by
  refine ⟨?_, ?_, ?_, by decide⟩
  · intro obs timeout
    simpa using wait_elapsed_le obs timeout (-1) 0
  · intro obs timeout h
    exact wait_ready_sound_aux obs timeout (-1) 0
      (Or.inl ⟨rfl, fun s hs => absurd hs (Nat.not_lt_zero s)⟩) h
  · intro obs timeout n h0 h1 hn ht
    obtain ⟨k, rfl⟩ : ∃ k, timeout = k + 2 := ⟨timeout - 2, by omega⟩
    show wait_for_file_ready obs (k + 1 + 1) (-1) 0 = (1, true)
    rw [wait_step_size obs (k+1) (-1) 0 n h0,
      if_neg (by rintro ⟨h1, h2⟩; omega)]
    have : (0 : Nat) + 1 = 1 := rfl
    rw [this, wait_step_size obs k (n : Int) 1 n h1, if_pos ⟨rfl, hn⟩]

/-- C9 witness: the theorem's ready clause applied to a constant-size
observation history. -/
theorem C9_witness : wait_ready (fun _ => SizeObs.size 7) 30 = (1, true) :=
  C9_stability_gate.2.2.1 (fun _ => SizeObs.size 7) 30 7 rfl rfl (by decide) (by decide)

end MP3Service
